import Mathlib

/-
Shallow embedding of the valuation core of AIRE (src/app.py):
operating-metrics computation (compute_metrics), amortization payment (pmt),
overflow-contained NPV (_npv_safe), grid-bracketed bisection IRR (irr_robust),
the monthly leveraged cash-flow projector (build_cashflows) and the grading
engine (aire_grade).  Python floats are idealized as exact rationals (ℚ);
the float values +inf / -inf that _npv_safe can return are made explicit in
an extended-rational type XRat.
-/

/- Batteries marks the core rational operations irreducible, which blocks
evaluation of the embedded functions by decide; restore the default
reducibility so concrete runs of the model can be checked by the kernel. -/
set_option allowUnsafeReducibility true
attribute [semireducible] Rat.add Rat.mul Rat.sub Rat.inv

namespace AIRE

/-- Result type of the NPV evaluator: a finite rational, or the +inf / -inf
sentinels the Python code produces with float("inf") / float("-inf"). -/
inductive XRat where
  | fin (q : ℚ)
  | posInf
  | negInf
deriving DecidableEq, Repr

namespace XRat

/-- math.isfinite on an XRat value. -/
def isFinite : XRat → Bool
  | .fin _ => true
  | _ => false

/-- Python comparison x > 0 (inf > 0 is True, -inf > 0 is False). -/
def isPos : XRat → Bool
  | .fin q => decide (0 < q)
  | .posInf => true
  | .negInf => false

/-- Python comparison x < 0 (inf < 0 is False, -inf < 0 is True). -/
def isNeg : XRat → Bool
  | .fin q => decide (q < 0)
  | .posInf => false
  | .negInf => true

/-- Python comparison abs(x) < eps (False on ±inf). -/
def absLt (x : XRat) (eps : ℚ) : Bool :=
  match x with
  | .fin q => decide (|q| < eps)
  | _ => false

end XRat

/-- Python truthiness defaulting on a number: `x or d` yields d when x == 0. -/
def pyOr (x d : ℚ) : ℚ := if x = 0 then d else x

/-- Python truthiness defaulting on an optional number: `dict.get(k) or d`
yields d when the key is missing (None) or its value is 0. -/
def pyOrOpt (x : Option ℚ) (d : ℚ) : ℚ :=
  match x with
  | none => d
  | some v => pyOr v d

/-- Python truthiness defaulting on an optional integer field. -/
def pyOrOptInt (x : Option ℤ) (d : ℤ) : ℤ :=
  match x with
  | none => d
  | some v => if v = 0 then d else v

/-- Python truthiness defaulting on a string: `s or d` yields d when s is empty. -/
def pyOrStr (s d : String) : String := if s = "" then d else s

/-- A Deal record as read by the core (src/app.py compute_metrics /
build_cashflows).  Fields the Python code reads with dict.get are optional:
none models a missing key (Python None). -/
structure Deal where
  property_type : String := "Unknown"
  price : Option ℚ := none
  units : Option ℤ := none
  avg_rent : Option ℚ := none
  vacancy : Option ℚ := none
  other_income_mo : Option ℚ := none
  taxes : Option ℚ := none
  insurance : Option ℚ := none
  hoa_mo : Option ℚ := none
  utilities_mo : Option ℚ := none
  management_pct : Option ℚ := none
  repairs_pct : Option ℚ := none
  capex_pct : Option ℚ := none
deriving DecidableEq, Repr

/-- CalibrationBias: the code reads each key with calib.get(k, 0.0), so a
missing key behaves exactly like 0 and plain rational fields suffice. -/
structure Calib where
  vacancy_bias : ℚ := 0
  oer_bias : ℚ := 0
  irr_bias : ℚ := 0
deriving DecidableEq, Repr

/-- The Metrics record returned by compute_metrics. -/
structure Metrics where
  units : ℤ
  avg_rent : ℚ
  gpr : ℚ
  other_income : ℚ
  vacancy : ℚ
  egi : ℚ
  taxes : ℚ
  insurance : ℚ
  hoa : ℚ
  utilities : ℚ
  mgmt : ℚ
  repairs : ℚ
  capex : ℚ
  opex : ℚ
  oer : ℚ
  noi : ℚ
  cap_rate : ℚ
deriving DecidableEq, Repr

/-- compute_metrics (src/app.py lines 682-707), field for field. -/
def compute_metrics (deal : Deal) (calib : Calib) : Metrics :=
  let units : ℤ := max 1 (pyOrOptInt deal.units 1)
  let avg_rent : ℚ := pyOrOpt deal.avg_rent
    (if deal.property_type = "Single Family" ∨ deal.property_type = "Condo" ∨
        deal.property_type = "Townhouse" then 1600 else 1400)
  let gpr : ℚ := (units : ℚ) * avg_rent * 12
  let other_income : ℚ := pyOrOpt deal.other_income_mo 0 * 12
  let vacancy0 : ℚ := pyOrOpt deal.vacancy (7/100) + calib.vacancy_bias
  let vacancy : ℚ := max 0 (min (1/4) vacancy0)
  let egi : ℚ := (gpr + other_income) * (1 - vacancy)
  let taxes : ℚ := pyOrOpt deal.taxes 0
  let insurance : ℚ := pyOrOpt deal.insurance 0
  let hoa : ℚ := pyOrOpt deal.hoa_mo 0 * 12
  let utilities : ℚ := pyOrOpt deal.utilities_mo 0 * 12
  let mgmt : ℚ := egi * pyOrOpt deal.management_pct (8/100)
  let repairs : ℚ := egi * pyOrOpt deal.repairs_pct (6/100)
  let capex : ℚ := egi * pyOrOpt deal.capex_pct (4/100)
  let opex0 : ℚ := taxes + insurance + hoa + utilities + mgmt + repairs + capex
  let opex : ℚ := max 0 (opex0 * (1 + calib.oer_bias))
  let oer : ℚ := if 0 < egi then opex / egi else 0
  let noi : ℚ := egi - opex
  let price : ℚ := pyOrOpt deal.price 0
  let cap_rate : ℚ := if 0 < price then noi / price else 0
  { units := units, avg_rent := avg_rent, gpr := gpr, other_income := other_income,
    vacancy := vacancy, egi := egi, taxes := taxes, insurance := insurance,
    hoa := hoa, utilities := utilities, mgmt := mgmt, repairs := repairs,
    capex := capex, opex := opex, oer := oer, noi := noi, cap_rate := cap_rate }

/-- pmt (src/app.py lines 709-711): standard amortization payment, with the
rate = 0 division-by-zero guard. -/
def pmt (rate : ℚ) (nper : ℕ) (pv : ℚ) : ℚ :=
  if rate = 0 then pv / (max nper 1 : ℕ)
  else pv * rate / (1 - (1 + rate) ^ (-(nper : ℤ)))

/-- Loop body of _npv_safe (src/app.py lines 717-733), in exact arithmetic:
disc = exp(t * log1p rate) is (1 + rate) ^ t.  For rate > -0.999999 this is a
strictly positive finite rational, so the float64 overflow clamps the source
applies at exponent ±700 (and the resulting disc == inf skip) cannot fire;
the disc == 0 short-circuit that returns ±inf is kept verbatim. -/
def npvLoop (rate : ℚ) : List ℚ → ℕ → ℚ → XRat
  | [], _, total => .fin total
  | cf :: rest, t, total =>
    let disc : ℚ := (1 + rate) ^ t
    if disc = 0 then (if 0 < cf then .posInf else .negInf)
    else npvLoop rate rest (t + 1) (total + cf / disc)

/-- _npv_safe (src/app.py lines 713-734): domain-guarded NPV. -/
def npv_safe (rate : ℚ) (cashflows : List ℚ) : XRat :=
  if rate ≤ -(999999/1000000 : ℚ) then .posInf
  else npvLoop rate cashflows 0 0

/-- The fixed probe grid of irr_robust (src/app.py line 740). -/
def irrGrid : List ℚ :=
  [-(95/100), -(8/10), -(6/10), -(4/10), -(2/10), -(1/10), -(5/100), -(2/100),
   0, 1/100, 2/100, 5/100, 1/10, 2/10, 35/100, 1/2, 3/4, 1, 3/2, 2, 3, 5]

/-- Outcome of the bracket scan in irr_robust: an exact grid root, a sign-change
bracket, or nothing. -/
inductive ScanRes where
  | exact (r : ℚ)
  | bracket (a b fa fb : ℚ)
  | notFound
deriving DecidableEq, Repr

/-- Bracket scan of irr_robust (src/app.py lines 749-761): walk adjacent grid
pairs, skip non-finite pairs, return a grid point whose NPV is exactly 0,
else the first strict sign change. -/
def findBracket : List (ℚ × XRat) → ScanRes
  | [] => .notFound
  | [_] => .notFound
  | p :: q :: rest =>
    match p.2, q.2 with
    | .fin qa, .fin qb =>
      if qa = 0 then .exact p.1
      else if qb = 0 then .exact q.1
      else if (0 < qa ∧ qb < 0) ∨ (qa < 0 ∧ 0 < qb) then .bracket p.1 q.1 qa qb
      else findBracket (q :: rest)
    | _, _ => findBracket (q :: rest)

/-- Bisection loop of irr_robust (src/app.py lines 775-788), fuel-counted for
the fixed 80 iterations.  fa and fb come from the bracket as finite values but
are overwritten with midpoint NPVs that may be non-finite, so they are carried
as XRat; fb is assigned but never read, exactly as in the source. -/
def bisectLoop (cashflows : List ℚ) : ℕ → ℚ → ℚ → XRat → XRat → ℚ
  | 0, a, b, _, _ => (a + b) / 2
  | k + 1, a, b, fa, fb =>
    let mid0 : ℚ := (a + b) / 2
    let fm0 : XRat := npv_safe mid0 cashflows
    let step : ℚ × XRat :=
      if fm0.isFinite then (mid0, fm0)
      else
        let mid1 : ℚ := (mid0 + a) / 2
        (mid1, npv_safe mid1 cashflows)
    let mid : ℚ := step.1
    let fm : XRat := step.2
    if fm.absLt (1/1000000) then mid
    else if (fa.isPos ∧ fm.isNeg) ∨ (fa.isNeg ∧ fm.isPos) then
      bisectLoop cashflows k a mid fa fm
    else
      bisectLoop cashflows k mid b fm fb

/-- irr_robust (src/app.py lines 736-788).  The no-bracket fallback call to
np.irr is modelled as the 0.0 sentinel: numpy removed irr, so the source's
try/except around it always falls through to `return 0.0` (the spec's §4.2
step 3 / design note both present 0.0 as the sentinel of this path). -/
def irr_robust (cashflows : List ℚ) : ℚ :=
  let vals : List XRat := irrGrid.map (fun r => npv_safe r cashflows)
  match findBracket (irrGrid.zip vals) with
  | .exact r => r
  | .notFound => 0
  | .bracket a b fa fb => bisectLoop cashflows 80 a b (.fin fa) (.fin fb)

/-- The CashflowModel record returned by build_cashflows (pandas-frame fields
of the surrounding app are out of the core and omitted). -/
structure CashflowModel where
  cashflows : List ℚ
  irr_monthly : ℚ
  irr_annual : ℚ
  equity_multiple : ℚ
  sale_price : ℚ
  net_sale : ℚ
  end_loan_balance : ℚ
deriving DecidableEq, Repr

/-- cashflows[-1] += v (src/app.py line 822): add v to the last entry of a
list, appending nothing. -/
def addToLast : List ℚ → ℚ → List ℚ
  | [], _ => []
  | [x], v => [x + v]
  | x :: y :: rest, v => x :: addToLast (y :: rest) v

/-- One month of the amortization loop of build_cashflows (src/app.py lines
813-815): interest = bal * r_m, principal = max(0, pay - interest),
new balance = max(0, bal - principal). -/
def amortStep (r_m pay bal : ℚ) : ℚ :=
  max 0 (bal - max 0 (pay - bal * r_m))

/-- Loan balance after k months of the build_cashflows loop. -/
def loanBalanceAfter (r_m pay b0 : ℚ) : ℕ → ℚ
  | 0 => b0
  | k + 1 => amortStep r_m pay (loanBalanceAfter r_m pay b0 k)

/-- The price build_cashflows actually uses (src/app.py line 794): the deal
price, or when that is missing/zero the imputed noi / max(0.05, cap_rate or
0.06). -/
def effPrice (deal : Deal) (m : Metrics) : ℚ :=
  pyOr (pyOrOpt deal.price 0) (m.noi / max (5/100) (pyOr m.cap_rate (6/100)))

/-- Net cash flow appended for a given month (1-based) by the build_cashflows
loop (src/app.py lines 808-816): year index y = (month-1) div 12, grown
monthly NOI minus the debt-service payment.  The appended flow does not read
the loan balance, so the cash-flow list and the balance recursion separate. -/
def monthCF (egi_m0 opex_m0 rent_growth expense_growth pay : ℚ) (month : ℕ) : ℚ :=
  let y : ℕ := (month - 1) / 12
  (egi_m0 * (1 + rent_growth) ^ y - opex_m0 * (1 + expense_growth) ^ y) - pay

/-- build_cashflows (src/app.py lines 790-828).  hold_years and amort_years
are naturals, matching the documented domain (ints ≥ 1); the growth exponent
hold_years - 1 is the same truncated subtraction the Python int arithmetic
performs on that domain. -/
def build_cashflows (deal : Deal) (m : Metrics) (hold_years : ℕ)
    (rent_growth expense_growth exit_cap sale_cost_pct down_payment_pct interest_rate : ℚ)
    (amort_years : ℕ) : CashflowModel :=
  let months : ℕ := hold_years * 12
  let price : ℚ := effPrice deal m
  let equity0 : ℚ := -price * down_payment_pct
  let loan0 : ℚ := price * (1 - down_payment_pct)
  let r_m : ℚ := interest_rate / 12
  let nper : ℕ := amort_years * 12
  let pay : ℚ := pmt r_m nper loan0
  let egi_m0 : ℚ := m.egi / 12
  let opex_m0 : ℚ := m.opex / 12
  let monthly : List ℚ := (List.range months).map
    (fun i => monthCF egi_m0 opex_m0 rent_growth expense_growth pay (i + 1))
  let loan_balance : ℚ := loanBalanceAfter r_m pay loan0 months
  let last_noi_annual : ℚ :=
    (egi_m0 * (1 + rent_growth) ^ (hold_years - 1)
      - opex_m0 * (1 + expense_growth) ^ (hold_years - 1)) * 12
  let sale_price : ℚ := last_noi_annual / max (1/100) exit_cap
  let sale_cost : ℚ := sale_price * sale_cost_pct
  let net_sale : ℚ := sale_price - sale_cost - loan_balance
  let cashflows : List ℚ := addToLast (equity0 :: monthly) net_sale
  let irr_m : ℚ := irr_robust cashflows
  let irr_a : ℚ := if -(999/1000) < irr_m then (1 + irr_m) ^ (12 : ℕ) - 1 else -1
  let eq_mult : ℚ :=
    if cashflows.headI ≠ 0 then
      (cashflows.tail.filter (fun cf => decide (0 < cf))).sum / |cashflows.headI|
    else 0
  { cashflows := cashflows, irr_monthly := irr_m, irr_annual := irr_a,
    equity_multiple := eq_mult, sale_price := sale_price, net_sale := net_sale,
    end_loan_balance := loan_balance }

/-- The Grade record returned by aire_grade. -/
structure Grade where
  score : ℚ
  letter : String
  confidence : ℚ
  flags : List String
  irr_adj : ℚ
  profile : String
deriving DecidableEq, Repr

/-- aire_grade (src/app.py lines 830-860): profile-tuned rule chain over
(oer, cap_rate, vacancy, bias-adjusted IRR), clamp to [0,100], letter by
thresholds.  The score/flag pair is threaded through the four rule blocks in
source order. -/
def aire_grade (m : Metrics) (irr_a : ℚ) (calib : Calib) (scoring_profile : String) : Grade :=
  let oer : ℚ := m.oer
  let cap : ℚ := m.cap_rate
  let vac : ℚ := m.vacancy
  let irr_adj : ℚ := irr_a + calib.irr_bias
  let profile : String := (pyOrStr scoring_profile "Core").toLower
  let pens : ℚ × ℚ × ℚ :=
    if profile = "value-add" then (14, 6, 10)
    else if profile = "growth" then (12, 8, 8)
    else (18, 4, 12)
  let oer_high_pen : ℚ := pens.1
  let irr_bonus_high : ℚ := pens.2.1
  let cap_low_pen : ℚ := pens.2.2
  let sf1 : ℚ × List String :=
    if 55/100 < oer then (100 - oer_high_pen, ["High operating expense ratio (>55%)."])
    else if 45/100 < oer then (100 - 10, ["Elevated operating expense ratio (>45%)."])
    else if oer < 1/4 then (100 - 6, ["Unusually low expense ratio — verify inputs."])
    else (100, [])
  let sf2 : ℚ × List String :=
    if cap ≤ 0 then (sf1.1 - 18, sf1.2 ++ ["Cap rate unavailable — missing NOI or price."])
    else if cap < 45/1000 then (sf1.1 - cap_low_pen, sf1.2 ++ ["Low cap rate — thin yield."])
    else if 9/100 < cap then (sf1.1 + 4, sf1.2 ++ ["High cap rate — verify condition/risks."])
    else sf1
  let sf3 : ℚ × List String :=
    if 12/100 < vac then (sf2.1 - 10, sf2.2 ++ ["High vacancy assumption (>12%)."])
    else if vac < 4/100 then (sf2.1 - 4, sf2.2 ++ ["Very low vacancy — confirm market realism."])
    else sf2
  let sf4 : ℚ × List String :=
    if irr_adj < 8/100 then (sf3.1 - 8, sf3.2 ++ ["Low IRR (<8%) in base case."])
    else if 18/100 < irr_adj then
      (sf3.1 + irr_bonus_high, sf3.2 ++ ["High IRR (>18%) — double-check assumptions."])
    else sf3
  let score : ℚ := max 0 (min 100 sf4.1)
  let letter : String :=
    if 90 ≤ score then "A" else if 80 ≤ score then "B" else if 70 ≤ score then "C"
    else if 60 ≤ score then "D" else "F"
  { score := score, letter := letter, confidence := 78/100, flags := sf4.2,
    irr_adj := irr_adj, profile := scoring_profile }

/-!  Theorems  -/

/-- C1: the NPV evaluator is total and fails closed: for every finite cash-flow
sequence and every rate, npv_safe returns a finite value or one of the ±infinity
sentinels (it can do nothing else), and for every rate ≤ -0.999999 it returns
+infinity regardless of the cash flows. -/
theorem npv_safe_total_fails_closed (rate : ℚ) (cashflows : List ℚ) :
    ((∃ q, npv_safe rate cashflows = XRat.fin q) ∨
      npv_safe rate cashflows = XRat.posInf ∨ npv_safe rate cashflows = XRat.negInf) ∧
    (rate ≤ -(999999/1000000) → npv_safe rate cashflows = XRat.posInf) := by
  constructor
  · rcases h : npv_safe rate cashflows with q | _ | _
    · exact Or.inl ⟨q, rfl⟩
    · exact Or.inr (Or.inl rfl)
    · exact Or.inr (Or.inr rfl)
  · intro h
    simp [npv_safe, h]

/-- C1 witness: the domain guard at the concrete rate -1. -/
theorem npv_safe_total_fails_closed_witness :
    npv_safe (-1) [100, -50] = XRat.posInf :=
  (npv_safe_total_fails_closed (-1) [100, -50]).2 (by norm_num)

/-- C10: a supplied vacancy of exactly 0 is indistinguishable from an absent
vacancy: the whole Metrics record agrees, and the vacancy both produce is the
default 0.07 plus the bias, clamped to [0, 0.25], so a caller cannot obtain a
true 0% vacancy assumption. -/
theorem compute_metrics_zero_vacancy_as_absent (d : Deal) (c : Calib) :
    compute_metrics { d with vacancy := some 0 } c =
      compute_metrics { d with vacancy := none } c ∧
    (compute_metrics { d with vacancy := some 0 } c).vacancy =
      max 0 (min (1/4) (7/100 + c.vacancy_bias)) := by
  constructor
  · simp [compute_metrics, pyOrOpt, pyOr]
  · simp [compute_metrics, pyOrOpt, pyOr]

/-- C9 counterexample: "Office" is not a multifamily property type, yet the
default average rent compute_metrics substitutes for it is 1400, not 1600:
the 1600 default applies only to the three types listed in the source. -/
theorem compute_metrics_default_rent_counterexample :
    "Office" ≠ "Multifamily" ∧
    (compute_metrics { property_type := "Office" } {}).avg_rent = 1400 ∧
    (1400 : ℚ) ≠ 1600 := by
  refine ⟨by decide, by decide, by norm_num⟩

/-- C9 (amended): when avg_rent is absent or zero, compute_metrics substitutes
1600 exactly for property types "Single Family", "Condo" and "Townhouse", and
1400 for every other property type. -/
theorem compute_metrics_default_rent (d : Deal) (c : Calib)
    (h : d.avg_rent = none ∨ d.avg_rent = some 0) :
    (compute_metrics d c).avg_rent =
      (if d.property_type = "Single Family" ∨ d.property_type = "Condo" ∨
          d.property_type = "Townhouse" then 1600 else 1400) := by
  rcases h with h | h <;> simp [compute_metrics, pyOrOpt, pyOr, h]

/-- C9 witness: a Condo with missing avg_rent gets the 1600 default. -/
theorem compute_metrics_default_rent_witness :
    (compute_metrics { property_type := "Condo" } {}).avg_rent =
      (if ("Condo" : String) = "Single Family" ∨ ("Condo" : String) = "Condo" ∨
          ("Condo" : String) = "Townhouse" then 1600 else 1400) :=
  compute_metrics_default_rent { property_type := "Condo" } {} (Or.inl rfl)

/-- C4: for every metrics record, annual IRR, calibration and scoring-profile
string, the grade has a score in [0,100], and the letter is A when
score ≥ 90, B when 80 ≤ score < 90, C when 70 ≤ score < 80, D when
60 ≤ score < 70, and F otherwise. -/
theorem aire_grade_score_clamped_letter_thresholds (m : Metrics) (irr_a : ℚ)
    (calib : Calib) (sp : String) :
    0 ≤ (aire_grade m irr_a calib sp).score ∧
    (aire_grade m irr_a calib sp).score ≤ 100 ∧
    (aire_grade m irr_a calib sp).letter =
      (if 90 ≤ (aire_grade m irr_a calib sp).score then "A"
       else if 80 ≤ (aire_grade m irr_a calib sp).score then "B"
       else if 70 ≤ (aire_grade m irr_a calib sp).score then "C"
       else if 60 ≤ (aire_grade m irr_a calib sp).score then "D"
       else "F") := by
  refine ⟨?_, ?_, ?_⟩
  · exact le_max_left 0 _
  · exact max_le (by norm_num) (min_le_left 100 _)
  · rfl

/-- On a sequence of strictly positive cash flows with a positive discount
base, the NPV loop lands on a finite value no smaller than its accumulator,
strictly bigger when the sequence is nonempty. -/
lemma npvLoop_fin_pos (rate : ℚ) (hb : 0 < 1 + rate) :
    ∀ (cfs : List ℚ) (t : ℕ) (total : ℚ), (∀ cf ∈ cfs, 0 < cf) →
      ∃ q, npvLoop rate cfs t total = XRat.fin q ∧ total ≤ q ∧ (cfs ≠ [] → total < q)
  | [], t, total, _ => ⟨total, rfl, le_refl total, fun h => absurd rfl h⟩
  | cf :: rest, t, total, hpos => by
    have hdisc : (0 : ℚ) < (1 + rate) ^ t := pow_pos hb t
    have hcf : 0 < cf := hpos cf (List.mem_cons_self cf rest)
    have hterm : 0 < cf / (1 + rate) ^ t := div_pos hcf hdisc
    obtain ⟨q, hq, hle, _⟩ :=
      npvLoop_fin_pos rate hb rest (t + 1) (total + cf / (1 + rate) ^ t)
        (fun x hx => hpos x (List.mem_cons_of_mem cf hx))
    refine ⟨q, ?_, ?_, fun _ => ?_⟩
    · simp only [npvLoop, if_neg (ne_of_gt hdisc)]
      exact hq
    · linarith
    · linarith

/-- Mirror of npvLoop_fin_pos for strictly negative cash flows. -/
lemma npvLoop_fin_neg (rate : ℚ) (hb : 0 < 1 + rate) :
    ∀ (cfs : List ℚ) (t : ℕ) (total : ℚ), (∀ cf ∈ cfs, cf < 0) →
      ∃ q, npvLoop rate cfs t total = XRat.fin q ∧ q ≤ total ∧ (cfs ≠ [] → q < total)
  | [], t, total, _ => ⟨total, rfl, le_refl total, fun h => absurd rfl h⟩
  | cf :: rest, t, total, hneg => by
    have hdisc : (0 : ℚ) < (1 + rate) ^ t := pow_pos hb t
    have hcf : cf < 0 := hneg cf (List.mem_cons_self cf rest)
    have hterm : cf / (1 + rate) ^ t < 0 := div_neg_of_neg_of_pos hcf hdisc
    obtain ⟨q, hq, hle, _⟩ :=
      npvLoop_fin_neg rate hb rest (t + 1) (total + cf / (1 + rate) ^ t)
        (fun x hx => hneg x (List.mem_cons_of_mem cf hx))
    refine ⟨q, ?_, ?_, fun _ => ?_⟩
    · simp only [npvLoop, if_neg (ne_of_gt hdisc)]
      exact hq
    · linarith
    · linarith

/-- When every probed value is finite and strictly positive, the bracket scan
finds neither an exact root nor a sign change. -/
lemma findBracket_notFound_pos :
    ∀ l : List (ℚ × XRat), (∀ p ∈ l, ∃ q, p.2 = XRat.fin q ∧ 0 < q) →
      findBracket l = ScanRes.notFound
  | [], _ => rfl
  | [_], _ => rfl
  | p :: q :: rest, h => by
    obtain ⟨qa, ha, hqa⟩ := h p (List.mem_cons_self p (q :: rest))
    obtain ⟨qb, hb, hqb⟩ := h q (List.mem_cons_of_mem p (List.mem_cons_self q rest))
    have ih := findBracket_notFound_pos (q :: rest)
      (fun x hx => h x (List.mem_cons_of_mem p hx))
    simp only [findBracket, ha, hb, if_neg (ne_of_gt hqa), if_neg (ne_of_gt hqb)]
    rw [if_neg]
    · exact ih
    · rintro (⟨_, h2⟩ | ⟨h1, _⟩)
      · exact absurd hqb (not_lt_of_gt h2)
      · exact absurd hqa (not_lt_of_gt h1)

/-- Mirror of findBracket_notFound_pos for all-negative probed values. -/
lemma findBracket_notFound_neg :
    ∀ l : List (ℚ × XRat), (∀ p ∈ l, ∃ q, p.2 = XRat.fin q ∧ q < 0) →
      findBracket l = ScanRes.notFound
  | [], _ => rfl
  | [_], _ => rfl
  | p :: q :: rest, h => by
    obtain ⟨qa, ha, hqa⟩ := h p (List.mem_cons_self p (q :: rest))
    obtain ⟨qb, hb, hqb⟩ := h q (List.mem_cons_of_mem p (List.mem_cons_self q rest))
    have ih := findBracket_notFound_neg (q :: rest)
      (fun x hx => h x (List.mem_cons_of_mem p hx))
    simp only [findBracket, ha, hb, if_neg (ne_of_lt hqa), if_neg (ne_of_lt hqb)]
    rw [if_neg]
    · exact ih
    · rintro (⟨h1, _⟩ | ⟨_, h2⟩)
      · exact absurd hqa (not_lt_of_gt h1)
      · exact absurd hqb (not_lt_of_gt h2)

/-- Every probe rate of the grid is above the -0.999999 domain guard and keeps
the discount base 1 + r positive. -/
lemma irrGrid_rates_ok : ∀ r ∈ irrGrid, -(999999/1000000 : ℚ) < r ∧ 0 < 1 + r := by
  decide

/-- C2 counterexample: the empty cash-flow sequence has all entries (vacuously)
strictly positive, yet irr_robust returns -0.95 — the first grid point, whose
NPV over the empty sequence is exactly 0 — rather than the 0.0 sentinel. -/
theorem irr_robust_vacuous_positive_counterexample :
    (∀ cf ∈ ([] : List ℚ), 0 < cf) ∧ irr_robust [] = -(19/20) ∧ (-(19/20) : ℚ) ≠ 0 := by
  refine ⟨by simp, by decide, by norm_num⟩

/-- C2 (amended): for every NONEMPTY cash-flow sequence whose entries are all
strictly positive, or all strictly negative, irr_robust finds no sign change of
NPV across the probe grid and returns the sentinel 0.0 (not an error).  (The
empty sequence satisfies both sign conditions vacuously but hits the
exact-zero grid-point branch instead, see the counterexample.) -/
theorem irr_robust_no_bracket_sentinel (cashflows : List ℚ) (hne : cashflows ≠ [])
    (hsign : (∀ cf ∈ cashflows, 0 < cf) ∨ (∀ cf ∈ cashflows, cf < 0)) :
    irr_robust cashflows = 0 := by
  have hzip : irrGrid.zip (irrGrid.map (fun r => npv_safe r cashflows)) =
      irrGrid.map (fun r => (r, npv_safe r cashflows)) := by
    simpa using List.zip_map' (id : ℚ → ℚ) (fun r => npv_safe r cashflows) irrGrid
  have hval : ∀ r ∈ irrGrid, npv_safe r cashflows =
      npvLoop r cashflows 0 0 := by
    intro r hr
    have := (irrGrid_rates_ok r hr).1
    simp [npv_safe, not_le.mpr this]
  have hfb : findBracket (irrGrid.zip (irrGrid.map (fun r => npv_safe r cashflows))) =
      ScanRes.notFound := by
    rw [hzip]
    rcases hsign with hpos | hneg
    · apply findBracket_notFound_pos
      intro p hp
      obtain ⟨r, hr, rfl⟩ := List.mem_map.mp hp
      obtain ⟨q, hq, _, hstrict⟩ :=
        npvLoop_fin_pos r (irrGrid_rates_ok r hr).2 cashflows 0 0 hpos
      exact ⟨q, by rw [hval r hr]; exact hq, hstrict hne⟩
    · apply findBracket_notFound_neg
      intro p hp
      obtain ⟨r, hr, rfl⟩ := List.mem_map.mp hp
      obtain ⟨q, hq, _, hstrict⟩ :=
        npvLoop_fin_neg r (irrGrid_rates_ok r hr).2 cashflows 0 0 hneg
      exact ⟨q, by rw [hval r hr]; exact hq, hstrict hne⟩
  simp only [irr_robust, hfb]

/-- C2 witness: the spec's all-positive example [100, 50, 25] yields IRR 0.0. -/
theorem irr_robust_no_bracket_sentinel_witness : irr_robust [100, 50, 25] = 0 :=
  irr_robust_no_bracket_sentinel [100, 50, 25] (by simp)
    (Or.inl (by norm_num))

/-- The spec's Deal invariant (§3): monetary fields nonnegative, percentage
fields fractions in [0,1].  Fields are optional, so the bounds apply to
supplied values. -/
structure Deal.Valid (d : Deal) : Prop where
  price_nn : ∀ x ∈ d.price, 0 ≤ x
  avg_rent_nn : ∀ x ∈ d.avg_rent, 0 ≤ x
  other_income_nn : ∀ x ∈ d.other_income_mo, 0 ≤ x
  taxes_nn : ∀ x ∈ d.taxes, 0 ≤ x
  insurance_nn : ∀ x ∈ d.insurance, 0 ≤ x
  hoa_nn : ∀ x ∈ d.hoa_mo, 0 ≤ x
  utilities_nn : ∀ x ∈ d.utilities_mo, 0 ≤ x
  mgmt_pct_unit : ∀ x ∈ d.management_pct, 0 ≤ x ∧ x ≤ 1
  repairs_pct_unit : ∀ x ∈ d.repairs_pct, 0 ≤ x ∧ x ≤ 1
  capex_pct_unit : ∀ x ∈ d.capex_pct, 0 ≤ x ∧ x ≤ 1

lemma pyOr_nonneg {x d : ℚ} (hx : 0 ≤ x) (hd : 0 ≤ d) : 0 ≤ pyOr x d := by
  unfold pyOr
  split <;> assumption

lemma pyOr_pos {x d : ℚ} (hx : 0 ≤ x) (hd : 0 < d) : 0 < pyOr x d := by
  unfold pyOr
  split
  · exact hd
  · next h => exact lt_of_le_of_ne hx (Ne.symm h)

lemma pyOrOpt_nonneg (o : Option ℚ) (d : ℚ) (ho : ∀ x ∈ o, 0 ≤ x) (hd : 0 ≤ d) :
    0 ≤ pyOrOpt o d := by
  cases o with
  | none => exact hd
  | some v => exact pyOr_nonneg (ho v rfl) hd

lemma pyOrOpt_pos (o : Option ℚ) (d : ℚ) (ho : ∀ x ∈ o, 0 ≤ x) (hd : 0 < d) :
    0 < pyOrOpt o d := by
  cases o with
  | none => exact hd
  | some v => exact pyOr_pos (ho v rfl) hd

/-- NOI/price is monotone in EGI as long as the EGI-proportional expense share
times the bias multiplier does not exceed 1. -/
lemma noi_div_mono (F p c price e1 e2 : ℚ) (hF : 0 ≤ F) (hp : 0 ≤ p) (hc : 0 ≤ c)
    (hpc : p * c ≤ 1) (he : e2 ≤ e1) (he2 : 0 ≤ e2) (hprice : 0 < price) :
    (e2 - max 0 ((F + e2 * p) * c)) / price ≤ (e1 - max 0 ((F + e1 * p) * c)) / price := by
  have he1 : 0 ≤ e1 := le_trans he2 he
  have h2 : 0 ≤ (F + e2 * p) * c := mul_nonneg (by positivity) hc
  have h1 : 0 ≤ (F + e1 * p) * c := mul_nonneg (by positivity) hc
  rw [max_eq_right h2, max_eq_right h1]
  refine (div_le_div_iff_of_pos_right hprice).mpr ?_
  nlinarith [mul_nonneg (sub_nonneg.mpr hpc) (sub_nonneg.mpr he)]

/-- C5 counterexample, two failures in one record.  First: with the default
deal and vacancy biases 0.3 < 0.4 both saturating the 0.25 vacancy clamp,
egi does not strictly decrease (it is equal).  Second: with oer_bias = 10
(CalibrationBias fields are arbitrary signed reals per the spec), raising
vacancy_bias from 0 to 0.05 strictly RAISES cap_rate: expenses are 1.98 ×
EGI, so shrinking EGI shrinks the loss. -/
theorem compute_metrics_vacancy_bias_counterexample :
    ((3/10 : ℚ) < 4/10 ∧
      (compute_metrics {} { vacancy_bias := 4/10 }).egi =
        (compute_metrics {} { vacancy_bias := 3/10 }).egi) ∧
    ((0 : ℚ) < 5/100 ∧
      (compute_metrics { price := some 100000 } { oer_bias := 10 }).cap_rate <
        (compute_metrics { price := some 100000 }
            { vacancy_bias := 5/100, oer_bias := 10 }).cap_rate) := by
  refine ⟨⟨by norm_num, by decide⟩, ⟨by norm_num, by decide⟩⟩

/-- C5 (amended): for a deal satisfying the documented invariant and
calibrations agreeing on the other fields, raising vacancy_bias strictly
decreases egi provided the two biased vacancies are not pinned together by
the [0, 0.25] clamp (0 < default-or-supplied vacancy + higher bias, and
vacancy + lower bias < 0.25), and does not increase cap_rate provided the
EGI-proportional expense share scaled by (1 + oer_bias) is at most 1 with
1 + oer_bias nonnegative. -/
theorem compute_metrics_vacancy_bias_monotone (d : Deal) (c1 c2 : Calib)
    (hv : d.Valid) (hoer : c1.oer_bias = c2.oer_bias) (_hirr : c1.irr_bias = c2.irr_bias)
    (hlt : c1.vacancy_bias < c2.vacancy_bias)
    (hclamp0 : 0 < pyOrOpt d.vacancy (7/100) + c2.vacancy_bias)
    (hclamp14 : pyOrOpt d.vacancy (7/100) + c1.vacancy_bias < 1/4)
    (hcnn : 0 ≤ 1 + c1.oer_bias)
    (hload : (pyOrOpt d.management_pct (8/100) + pyOrOpt d.repairs_pct (6/100) +
        pyOrOpt d.capex_pct (4/100)) * (1 + c1.oer_bias) ≤ 1) :
    (compute_metrics d c2).egi < (compute_metrics d c1).egi ∧
    (compute_metrics d c2).cap_rate ≤ (compute_metrics d c1).cap_rate := by
  have hvac : ∀ c : Calib, (compute_metrics d c).vacancy =
      max 0 (min (1/4) (pyOrOpt d.vacancy (7/100) + c.vacancy_bias)) := fun c => rfl
  have hegi : ∀ c : Calib, (compute_metrics d c).egi =
      (((max 1 (pyOrOptInt d.units 1) : ℤ) : ℚ) *
          pyOrOpt d.avg_rent
            (if d.property_type = "Single Family" ∨ d.property_type = "Condo" ∨
                d.property_type = "Townhouse" then 1600 else 1400) * 12 +
        pyOrOpt d.other_income_mo 0 * 12) * (1 - (compute_metrics d c).vacancy) :=
    fun c => rfl
  have hopex : ∀ c : Calib, (compute_metrics d c).opex =
      max 0 ((pyOrOpt d.taxes 0 + pyOrOpt d.insurance 0 + pyOrOpt d.hoa_mo 0 * 12 +
          pyOrOpt d.utilities_mo 0 * 12 +
          (compute_metrics d c).egi * pyOrOpt d.management_pct (8/100) +
          (compute_metrics d c).egi * pyOrOpt d.repairs_pct (6/100) +
          (compute_metrics d c).egi * pyOrOpt d.capex_pct (4/100)) *
        (1 + c.oer_bias)) := fun c => rfl
  have hcap : ∀ c : Calib, (compute_metrics d c).cap_rate =
      (if 0 < pyOrOpt d.price 0 then
        ((compute_metrics d c).egi - (compute_metrics d c).opex) / pyOrOpt d.price 0
      else 0) := fun c => rfl
  -- the clamped vacancies separate strictly
  have hvlt : (compute_metrics d c1).vacancy < (compute_metrics d c2).vacancy := by
    rw [hvac c1, hvac c2]
    have hx : pyOrOpt d.vacancy (7/100) + c1.vacancy_bias <
        pyOrOpt d.vacancy (7/100) + c2.vacancy_bias := by linarith
    rcases le_or_lt (pyOrOpt d.vacancy (7/100) + c2.vacancy_bias) (1/4) with hle | hgt
    · rw [min_eq_right hle, min_eq_right (le_of_lt hclamp14),
        max_eq_right (le_of_lt hclamp0)]
      exact max_lt hclamp0 hx
    · rw [min_eq_left (le_of_lt hgt), min_eq_right (le_of_lt hclamp14),
        max_eq_right (by norm_num : (0:ℚ) ≤ 1/4)]
      exact max_lt (by norm_num) hclamp14
  have hvac2le : (compute_metrics d c2).vacancy ≤ 1/4 := by
    rw [hvac c2]
    exact max_le (by norm_num) (min_le_left _ _)
  have hvac1nn : 0 ≤ (compute_metrics d c1).vacancy := by
    rw [hvac c1]
    exact le_max_left _ _
  -- base income is strictly positive under the invariant
  have har : 0 < pyOrOpt d.avg_rent
      (if d.property_type = "Single Family" ∨ d.property_type = "Condo" ∨
          d.property_type = "Townhouse" then 1600 else 1400) := by
    apply pyOrOpt_pos _ _ hv.avg_rent_nn
    split <;> norm_num
  have hu : (1 : ℚ) ≤ ((max 1 (pyOrOptInt d.units 1) : ℤ) : ℚ) := by
    exact_mod_cast le_max_left 1 (pyOrOptInt d.units 1)
  have hoi : 0 ≤ pyOrOpt d.other_income_mo 0 * 12 :=
    mul_nonneg (pyOrOpt_nonneg _ _ hv.other_income_nn le_rfl) (by norm_num)
  have hbase : 0 < ((max 1 (pyOrOptInt d.units 1) : ℤ) : ℚ) *
      pyOrOpt d.avg_rent
        (if d.property_type = "Single Family" ∨ d.property_type = "Condo" ∨
            d.property_type = "Townhouse" then 1600 else 1400) * 12 +
      pyOrOpt d.other_income_mo 0 * 12 := by
    have : 0 < ((max 1 (pyOrOptInt d.units 1) : ℤ) : ℚ) := lt_of_lt_of_le one_pos hu
    nlinarith
  -- strict EGI decrease
  have hegilt : (compute_metrics d c2).egi < (compute_metrics d c1).egi := by
    rw [hegi c1, hegi c2]
    exact mul_lt_mul_of_pos_left (by linarith) hbase
  refine ⟨hegilt, ?_⟩
  -- cap-rate monotonicity
  rw [hcap c1, hcap c2]
  rcases lt_or_le 0 (pyOrOpt d.price 0) with hp | hp
  swap
  · rw [if_neg (not_lt.mpr hp), if_neg (not_lt.mpr hp)]
  rw [if_pos hp, if_pos hp]
  have hegi2nn : 0 ≤ (compute_metrics d c2).egi := by
    rw [hegi c2]
    have : (compute_metrics d c2).vacancy ≤ 1 := le_trans hvac2le (by norm_num)
    nlinarith
  have hFnn : 0 ≤ pyOrOpt d.taxes 0 + pyOrOpt d.insurance 0 + pyOrOpt d.hoa_mo 0 * 12 +
      pyOrOpt d.utilities_mo 0 * 12 := by
    have h1 := pyOrOpt_nonneg _ (0:ℚ) hv.taxes_nn le_rfl
    have h2 := pyOrOpt_nonneg _ (0:ℚ) hv.insurance_nn le_rfl
    have h3 := pyOrOpt_nonneg _ (0:ℚ) hv.hoa_nn le_rfl
    have h4 := pyOrOpt_nonneg _ (0:ℚ) hv.utilities_nn le_rfl
    nlinarith
  have hpnn : 0 ≤ pyOrOpt d.management_pct (8/100) + pyOrOpt d.repairs_pct (6/100) +
      pyOrOpt d.capex_pct (4/100) := by
    have h1 := pyOrOpt_nonneg _ (8/100 : ℚ) (fun x hx => (hv.mgmt_pct_unit x hx).1) (by norm_num)
    have h2 := pyOrOpt_nonneg _ (6/100 : ℚ) (fun x hx => (hv.repairs_pct_unit x hx).1) (by norm_num)
    have h3 := pyOrOpt_nonneg _ (4/100 : ℚ) (fun x hx => (hv.capex_pct_unit x hx).1) (by norm_num)
    nlinarith
  have key := noi_div_mono
    (pyOrOpt d.taxes 0 + pyOrOpt d.insurance 0 + pyOrOpt d.hoa_mo 0 * 12 +
      pyOrOpt d.utilities_mo 0 * 12)
    (pyOrOpt d.management_pct (8/100) + pyOrOpt d.repairs_pct (6/100) +
      pyOrOpt d.capex_pct (4/100))
    (1 + c1.oer_bias) (pyOrOpt d.price 0)
    (compute_metrics d c1).egi (compute_metrics d c2).egi
    hFnn hpnn hcnn hload (le_of_lt hegilt) hegi2nn hp
  have e1 : max 0 (((pyOrOpt d.taxes 0 + pyOrOpt d.insurance 0 + pyOrOpt d.hoa_mo 0 * 12 +
      pyOrOpt d.utilities_mo 0 * 12) + (compute_metrics d c1).egi *
        (pyOrOpt d.management_pct (8/100) + pyOrOpt d.repairs_pct (6/100) +
          pyOrOpt d.capex_pct (4/100))) * (1 + c1.oer_bias)) =
      (compute_metrics d c1).opex := by
    rw [hopex c1]
    ring_nf
  have e2 : max 0 (((pyOrOpt d.taxes 0 + pyOrOpt d.insurance 0 + pyOrOpt d.hoa_mo 0 * 12 +
      pyOrOpt d.utilities_mo 0 * 12) + (compute_metrics d c2).egi *
        (pyOrOpt d.management_pct (8/100) + pyOrOpt d.repairs_pct (6/100) +
          pyOrOpt d.capex_pct (4/100))) * (1 + c1.oer_bias)) =
      (compute_metrics d c2).opex := by
    rw [hopex c2, hoer]
    ring_nf
  rw [e1, e2] at key
  exact key

/-- C5 witness: the default deal with biases 0 < 0.01 inside the clamp band
and unit expense load. -/
theorem compute_metrics_vacancy_bias_monotone_witness :
    (compute_metrics {} { vacancy_bias := 1/100 }).egi < (compute_metrics {} {}).egi ∧
    (compute_metrics {} { vacancy_bias := 1/100 }).cap_rate ≤
      (compute_metrics {} {}).cap_rate := by
  refine compute_metrics_vacancy_bias_monotone {} {} { vacancy_bias := 1/100 }
    ⟨?_, ?_, ?_, ?_, ?_, ?_, ?_, ?_, ?_, ?_⟩ rfl rfl (by norm_num) ?_ ?_ ?_ ?_
  all_goals simp [pyOrOpt, pyOr]
  all_goals norm_num

/-- A small concrete Metrics record for concrete runs: EGI 1200/yr, no
expenses, zero NOI and cap rate (so build_cashflows imputes price 0 and the
projected sequence has no sign change, keeping the IRR solver on the
sentinel path). -/
def exMetrics : Metrics :=
  { units := 1, avg_rent := 0, gpr := 0, other_income := 0, vacancy := 0,
    egi := 1200, taxes := 0, insurance := 0, hoa := 0, utilities := 0, mgmt := 0,
    repairs := 0, capex := 0, opex := 0, oer := 0, noi := 0, cap_rate := 0 }

/-- C6 counterexample: exit_cap = 1/200 is > 0 and inside the documented
ModelInputs domain, but the sale price is NOT last annual NOI divided by
exit_cap: the code divides by max(0.01, exit_cap) = 0.01 instead
(1200 / 0.01 = 120000 against the claimed 1200 / 0.005 = 240000). -/
theorem build_cashflows_exit_cap_floor_counterexample :
    (0 : ℚ) < 1/200 ∧
    (build_cashflows {} exMetrics 1 0 0 (1/200) 0 (1/4) 0 30).sale_price ≠
      ((exMetrics.egi / 12) * (1 + 0) ^ (1 - 1 : ℕ) -
        (exMetrics.opex / 12) * (1 + 0) ^ (1 - 1 : ℕ)) * 12 / (1/200) := by
  refine ⟨by norm_num, by decide⟩

/-- C6 (amended): for every exit_cap ≥ 0.01 (where the 0.01 floor the code
applies is inactive), the terminal sale price equals the last full year's
annualized NOI (grown with exponent hold_years − 1) divided by exit_cap, and
net sale proceeds equal sale price minus sale costs minus the remaining loan
balance. -/
theorem build_cashflows_terminal_sale (deal : Deal) (m : Metrics) (hold_years : ℕ)
    (rg eg ec scp dpp ir : ℚ) (ay : ℕ) (hec : 1/100 ≤ ec) :
    (build_cashflows deal m hold_years rg eg ec scp dpp ir ay).sale_price =
      ((m.egi / 12) * (1 + rg) ^ (hold_years - 1) -
        (m.opex / 12) * (1 + eg) ^ (hold_years - 1)) * 12 / ec ∧
    (build_cashflows deal m hold_years rg eg ec scp dpp ir ay).net_sale =
      (build_cashflows deal m hold_years rg eg ec scp dpp ir ay).sale_price -
      (build_cashflows deal m hold_years rg eg ec scp dpp ir ay).sale_price * scp -
      (build_cashflows deal m hold_years rg eg ec scp dpp ir ay).end_loan_balance := by
  constructor
  · have h : (build_cashflows deal m hold_years rg eg ec scp dpp ir ay).sale_price =
        ((m.egi / 12) * (1 + rg) ^ (hold_years - 1) -
          (m.opex / 12) * (1 + eg) ^ (hold_years - 1)) * 12 / max (1/100) ec := rfl
    rw [h, max_eq_right hec]
  · rfl

/-- C6 witness: a 1-year hold at exit_cap 5%. -/
theorem build_cashflows_terminal_sale_witness :
    (build_cashflows {} exMetrics 1 0 0 (5/100) 0 (1/4) 0 30).sale_price =
      ((exMetrics.egi / 12) * (1 + 0) ^ (1 - 1 : ℕ) -
        (exMetrics.opex / 12) * (1 + 0) ^ (1 - 1 : ℕ)) * 12 / (5/100) ∧
    (build_cashflows {} exMetrics 1 0 0 (5/100) 0 (1/4) 0 30).net_sale =
      (build_cashflows {} exMetrics 1 0 0 (5/100) 0 (1/4) 0 30).sale_price -
      (build_cashflows {} exMetrics 1 0 0 (5/100) 0 (1/4) 0 30).sale_price * 0 -
      (build_cashflows {} exMetrics 1 0 0 (5/100) 0 (1/4) 0 30).end_loan_balance :=
  build_cashflows_terminal_sale {} exMetrics 1 0 0 (5/100) 0 (1/4) 0 30 (by norm_num)

lemma addToLast_length (v : ℚ) : ∀ l : List ℚ, (addToLast l v).length = l.length
  | [] => rfl
  | [_] => rfl
  | _ :: y :: rest => congrArg (fun n => n + 1) (addToLast_length v (y :: rest))

/-- addToLast on a list with at least two elements is a cons. -/
lemma addToLast_cons_exists (y : ℚ) (rest : List ℚ) (v : ℚ) :
    ∃ z zs, addToLast (y :: rest) v = z :: zs := by
  cases rest with
  | nil => exact ⟨y + v, [], rfl⟩
  | cons w ws => exact ⟨y, addToLast (w :: ws) v, rfl⟩

lemma addToLast_getLast? (v : ℚ) :
    ∀ l : List ℚ, (addToLast l v).getLast? = l.getLast?.map (fun x => x + v)
  | [] => rfl
  | [_] => rfl
  | x :: y :: rest => by
    obtain ⟨z, zs, hz⟩ := addToLast_cons_exists y rest v
    calc (addToLast (x :: y :: rest) v).getLast?
        = (x :: addToLast (y :: rest) v).getLast? := rfl
      _ = (addToLast (y :: rest) v).getLast? := by rw [hz, List.getLast?_cons_cons, ← hz]
      _ = (y :: rest).getLast?.map (fun q => q + v) := addToLast_getLast? v (y :: rest)
      _ = (x :: y :: rest).getLast?.map (fun q => q + v) := by rw [List.getLast?_cons_cons]

lemma map_range_getLast? (f : ℕ → ℚ) (n : ℕ) (hn : 0 < n) :
    ((List.range n).map f).getLast? = some (f (n - 1)) := by
  cases n with
  | zero => omega
  | succ k =>
    rw [List.range_succ, List.map_append]
    simp

/-- C7: for hold_years ≥ 1 the cash-flow vector has length hold_years×12 + 1,
entry 0 is −price × down_payment_pct (price as build_cashflows resolves it),
and the last entry is the final month's operating flow PLUS the net sale
amount — added in, not appended as an extra period. -/
theorem build_cashflows_vector_shape (deal : Deal) (m : Metrics) (hold_years : ℕ)
    (rg eg ec scp dpp ir : ℚ) (ay : ℕ) (hhy : 1 ≤ hold_years) :
    (build_cashflows deal m hold_years rg eg ec scp dpp ir ay).cashflows.length =
      hold_years * 12 + 1 ∧
    (build_cashflows deal m hold_years rg eg ec scp dpp ir ay).cashflows.head? =
      some (-(effPrice deal m) * dpp) ∧
    (build_cashflows deal m hold_years rg eg ec scp dpp ir ay).cashflows.getLast? =
      some (monthCF (m.egi / 12) (m.opex / 12) rg eg
          (pmt (ir / 12) (ay * 12) (effPrice deal m * (1 - dpp))) (hold_years * 12) +
        (build_cashflows deal m hold_years rg eg ec scp dpp ir ay).net_sale) := by
  have hcf : (build_cashflows deal m hold_years rg eg ec scp dpp ir ay).cashflows =
      addToLast ((-(effPrice deal m) * dpp) ::
          (List.range (hold_years * 12)).map
            (fun i => monthCF (m.egi / 12) (m.opex / 12) rg eg
              (pmt (ir / 12) (ay * 12) (effPrice deal m * (1 - dpp))) (i + 1)))
        (build_cashflows deal m hold_years rg eg ec scp dpp ir ay).net_sale := rfl
  have hmonths : 0 < hold_years * 12 := by omega
  obtain ⟨y, ys, hy⟩ : ∃ y ys, (List.range (hold_years * 12)).map
      (fun i => monthCF (m.egi / 12) (m.opex / 12) rg eg
        (pmt (ir / 12) (ay * 12) (effPrice deal m * (1 - dpp))) (i + 1)) = y :: ys := by
    apply List.exists_cons_of_ne_nil
    apply List.ne_nil_of_length_pos
    simpa using hmonths
  refine ⟨?_, ?_, ?_⟩
  · rw [hcf, addToLast_length]
    simp
  · rw [hcf, hy]
    obtain ⟨z, zs, hz⟩ := addToLast_cons_exists y ys _
    have : addToLast ((-(effPrice deal m) * dpp) :: y :: ys)
        (build_cashflows deal m hold_years rg eg ec scp dpp ir ay).net_sale =
        (-(effPrice deal m) * dpp) :: addToLast (y :: ys)
          (build_cashflows deal m hold_years rg eg ec scp dpp ir ay).net_sale := rfl
    rw [this, hz]
    rfl
  · rw [hcf, addToLast_getLast?, hy, List.getLast?_cons_cons, ← hy,
      map_range_getLast? _ _ hmonths]
    have harg : hold_years * 12 - 1 + 1 = hold_years * 12 := by omega
    rw [harg]
    rfl

/-- C7 witness: the 1-year instance has 13 entries with the stated head and
last entries. -/
theorem build_cashflows_vector_shape_witness :
    (build_cashflows {} exMetrics 1 0 0 (5/100) 0 (1/4) 0 30).cashflows.length =
      1 * 12 + 1 ∧
    (build_cashflows {} exMetrics 1 0 0 (5/100) 0 (1/4) 0 30).cashflows.head? =
      some (-(effPrice {} exMetrics) * (1/4)) ∧
    (build_cashflows {} exMetrics 1 0 0 (5/100) 0 (1/4) 0 30).cashflows.getLast? =
      some (monthCF (exMetrics.egi / 12) (exMetrics.opex / 12) 0 0
          (pmt (0 / 12) (30 * 12) (effPrice {} exMetrics * (1 - 1/4))) (1 * 12) +
        (build_cashflows {} exMetrics 1 0 0 (5/100) 0 (1/4) 0 30).net_sale) :=
  build_cashflows_vector_shape {} exMetrics 1 0 0 (5/100) 0 (1/4) 0 30 (by norm_num)

lemma amortStep_zero (r pay : ℚ) : amortStep r pay 0 = 0 := by
  unfold amortStep
  rw [mul_comm, mul_zero, sub_zero, zero_sub, max_eq_left]
  simp [le_max_left]

lemma loanBalanceAfter_stays_zero (r pay b0 : ℚ) (n : ℕ)
    (h : loanBalanceAfter r pay b0 n = 0) :
    ∀ k, n ≤ k → loanBalanceAfter r pay b0 k = 0 := by
  have hstep : ∀ j, loanBalanceAfter r pay b0 (n + j) = 0 := by
    intro j
    induction j with
    | zero => exact h
    | succ j ih =>
      show amortStep r pay (loanBalanceAfter r pay b0 (n + j)) = 0
      rw [ih, amortStep_zero]
  intro k hk
  have : n + (k - n) = k := by omega
  rw [← this]
  exact hstep (k - n)

/-- Closed form of the amortizing balance at a strictly positive monthly rate:
after k ≤ n payments of pmt r n L the balance is
(L(1+r)^n − L(1+r)^k)/((1+r)^n − 1), and neither max-guard of the loop ever
binds. -/
lemma balance_formula_pos (L r : ℚ) (n : ℕ) (hL : 0 ≤ L) (hr : 0 < r) (hn : 1 ≤ n) :
    ∀ k, k ≤ n → loanBalanceAfter r (pmt r n L) L k =
      (L * (1 + r) ^ n - L * (1 + r) ^ k) / ((1 + r) ^ n - 1) := by
  have h1r : (1 : ℚ) < 1 + r := by linarith
  have hbpos : (0 : ℚ) < 1 + r := by linarith
  have hP : (1 : ℚ) < (1 + r) ^ n := one_lt_pow₀ h1r (by omega)
  have hP1 : (0 : ℚ) < (1 + r) ^ n - 1 := by linarith
  have hP0 : ((1 + r) ^ n : ℚ) ≠ 0 := ne_of_gt (pow_pos hbpos n)
  have hpay : pmt r n L = L * r * (1 + r) ^ n / ((1 + r) ^ n - 1) := by
    unfold pmt
    rw [if_neg (ne_of_gt hr), zpow_neg, zpow_natCast]
    rw [show 1 - ((1 + r) ^ n)⁻¹ = ((1 + r) ^ n - 1) / (1 + r) ^ n by field_simp]
    rw [div_div_eq_mul_div]
  intro k
  induction k with
  | zero =>
    intro _
    show L = (L * (1 + r) ^ n - L * (1 + r) ^ 0) / ((1 + r) ^ n - 1)
    rw [pow_zero, mul_one]
    field_simp
    ring
  | succ k ih =>
    intro hk1
    have hb := ih (Nat.le_of_succ_le hk1)
    have hX : (0 : ℚ) < (1 + r) ^ k := pow_pos hbpos k
    show amortStep r (pmt r n L) (loanBalanceAfter r (pmt r n L) L k) = _
    rw [hb]
    unfold amortStep
    have hinner : pmt r n L -
        (L * (1 + r) ^ n - L * (1 + r) ^ k) / ((1 + r) ^ n - 1) * r =
        L * r * (1 + r) ^ k / ((1 + r) ^ n - 1) := by
      rw [hpay]
      field_simp
      ring
    have houter : (L * (1 + r) ^ n - L * (1 + r) ^ k) / ((1 + r) ^ n - 1) -
        L * r * (1 + r) ^ k / ((1 + r) ^ n - 1) =
        (L * (1 + r) ^ n - L * (1 + r) ^ (k + 1)) / ((1 + r) ^ n - 1) := by
      rw [pow_succ]
      field_simp
      ring
    rw [hinner,
      show max (0 : ℚ) (L * r * (1 + r) ^ k / ((1 + r) ^ n - 1)) =
        L * r * (1 + r) ^ k / ((1 + r) ^ n - 1) from
        max_eq_right (div_nonneg (by positivity) (le_of_lt hP1)),
      houter]
    apply max_eq_right
    apply div_nonneg _ (le_of_lt hP1)
    have hle : (1 + r) ^ (k + 1) ≤ (1 + r) ^ n := pow_le_pow_right₀ (le_of_lt h1r) hk1
    nlinarith

/-- Closed form at a zero monthly rate: straight-line principal, balance
L(n − k)/n after k ≤ n payments. -/
lemma balance_formula_zero (L : ℚ) (n : ℕ) (hL : 0 ≤ L) (hn : 1 ≤ n) :
    ∀ k, k ≤ n → loanBalanceAfter 0 (pmt 0 n L) L k = L * ((n : ℚ) - k) / n := by
  have hn0 : (0 : ℚ) < (n : ℚ) := by exact_mod_cast Nat.lt_of_lt_of_le Nat.zero_lt_one hn
  have hpay : pmt 0 n L = L / (n : ℚ) := by
    unfold pmt
    rw [if_pos rfl]
    congr 1
    have : max n 1 = n := by omega
    rw [this]
  intro k
  induction k with
  | zero =>
    intro _
    show L = L * ((n : ℚ) - (0 : ℕ)) / n
    push_cast
    field_simp
  | succ k ih =>
    intro hk1
    have hb := ih (by omega)
    have hkn : ((k : ℚ) + 1) ≤ (n : ℚ) := by exact_mod_cast hk1
    show amortStep 0 (pmt 0 n L) (loanBalanceAfter 0 (pmt 0 n L) L k) = _
    rw [hb, hpay]
    unfold amortStep
    rw [mul_zero, sub_zero, max_eq_right (div_nonneg hL (le_of_lt hn0))]
    have harg : L * ((n : ℚ) - k) / n - L / n = L * ((n : ℚ) - ((k : ℕ) + 1 : ℕ)) / n := by
      push_cast
      field_simp
      ring
    rw [harg, max_eq_right]
    apply div_nonneg _ (le_of_lt hn0)
    have : (0 : ℚ) ≤ (n : ℚ) - ((k : ℚ) + 1) := by linarith
    push_cast
    nlinarith

/-- After the full amortization term the balance is exactly 0. -/
lemma loanBalance_reaches_zero (L r : ℚ) (n : ℕ) (hL : 0 ≤ L) (hr : 0 ≤ r)
    (hn : 1 ≤ n) : loanBalanceAfter r (pmt r n L) L n = 0 := by
  rcases eq_or_lt_of_le hr with heq | hpos
  · subst heq
    rw [balance_formula_zero L n hL hn n (le_refl n)]
    simp
  · rw [balance_formula_pos L r n hL hpos hn n (le_refl n)]
    simp

/-- C8: when hold_years×12 ≥ amort_years×12, the month-by-month principal
reductions of build_cashflows (payment from the standard amortization formula,
or principal/periods at zero rate) drive the remaining loan balance to exactly
0 by the end of the amortization term — exact in rational arithmetic, hence
within any floating tolerance. -/
theorem build_cashflows_amortization_conservation (deal : Deal) (m : Metrics)
    (hold_years : ℕ) (rg eg ec scp dpp ir : ℚ) (ay : ℕ)
    (hir : 0 ≤ ir) (hay : 1 ≤ ay) (hterm : ay ≤ hold_years)
    (hL : 0 ≤ effPrice deal m * (1 - dpp)) :
    (build_cashflows deal m hold_years rg eg ec scp dpp ir ay).end_loan_balance = 0 := by
  have h : (build_cashflows deal m hold_years rg eg ec scp dpp ir ay).end_loan_balance =
      loanBalanceAfter (ir / 12) (pmt (ir / 12) (ay * 12) (effPrice deal m * (1 - dpp)))
        (effPrice deal m * (1 - dpp)) (hold_years * 12) := rfl
  rw [h]
  have hzero := loanBalance_reaches_zero (effPrice deal m * (1 - dpp)) (ir / 12)
    (ay * 12) hL (by positivity) (by omega)
  exact loanBalanceAfter_stays_zero _ _ _ _ hzero _ (by omega)

/-- C8 witness: a fully amortizing concrete instance (1-year hold, 1-year
amortization, 6% rate). -/
theorem build_cashflows_amortization_conservation_witness :
    (build_cashflows { price := some 100000 } exMetrics 1 0 0 (5/100) 0 (1/4)
        (6/100) 1).end_loan_balance = 0 :=
  build_cashflows_amortization_conservation { price := some 100000 } exMetrics 1 0 0
    (5/100) 0 (1/4) (6/100) 1 (by norm_num) (by norm_num) (by norm_num) (by decide)

/-- The synthetic 4-period annuity of the spec: price 1000, four level
payments of 275.49. -/
def annuityCF : List ℚ := [-1000, 27549/100, 27549/100, 27549/100, 27549/100]

/-- C3 counterexample: the solved rate is NOT within 1e-4 of 10% per period.
(275.49 is the level payment of 1000 amortized over 4 periods at 4%, not 10%:
the sequence embodies a rate of ≈4%/period.) -/
theorem irr_robust_annuity_not_ten_percent :
    ¬ |irr_robust annuityCF - 1/10| < 1/10000 := by
  decide

/-- C3 (amended): the synthetic annuity [−1000, 275.49, 275.49, 275.49,
275.49] is built from a known periodic rate of approximately 4% per period
(275.49 = pmt(4%, 4, 1000)), and irr_robust recovers that rate within 1e-4. -/
theorem irr_robust_annuity_four_percent :
    |irr_robust annuityCF - 4/100| < 1/10000 := by
  decide

end AIRE
